import Mathlib

/-!
Shallow embedding of the minions HTTP helper library: the access guard,
the template store with optional reload-on-render, and the form binding
result. Go handlers mutate an http.ResponseWriter in place; here a handler
is a state-passing function from a writer value and a request to the
updated writer value. Go maps keyed by strings are association lists with
Go map assignment semantics. The html/template engine is external code;
its parse step is an explicit oracle argument producing, per file, a body
semantics from data to either a runtime error or rendered output.
-/

/-- Association list lookup, modelling reading a Go map keyed by strings. -/
def mapLookup {β : Type} : List (String × β) → String → Option β
  | [], _ => none
  | (k, v) :: rest, n => if k = n then some v else mapLookup rest n

/-- Association list update, modelling Go map assignment, replacing the value
in place when the key is present and appending otherwise. -/
def mapInsert {β : Type} : List (String × β) → String → β → List (String × β)
  | [], k, v => [(k, v)]
  | (k0, v0) :: rest, k, v =>
    if k0 = k then (k0, v) :: rest else (k0, v0) :: mapInsert rest k v

/-- The recorder view of an http.ResponseWriter: response headers, the
status code once the header has been written, and the body bytes. -/
structure ResponseWriter where
  headers : List (String × String)
  status : Option Nat
  body : String
deriving DecidableEq

/-- A fresh httptest recorder: no headers, header not yet written, empty body. -/
def newRecorder : ResponseWriter :=
  { headers := [], status := none, body := "" }

/-- Header().Add appends a key-value pair. -/
def ResponseWriter.addHeader (w : ResponseWriter) (key value : String) : ResponseWriter :=
  { w with headers := w.headers ++ [(key, value)] }

/-- Header().Del removes all values stored for a key. -/
def ResponseWriter.delHeader (w : ResponseWriter) (key : String) : ResponseWriter :=
  { w with headers := w.headers.filter (fun kv => kv.1 != key) }

/-- Header().Set replaces all values stored for a key by the given one. -/
def ResponseWriter.setHeader (w : ResponseWriter) (key value : String) : ResponseWriter :=
  { w with headers := (w.delHeader key).headers ++ [(key, value)] }

/-- WriteHeader commits the status code; a second call is ignored. -/
def ResponseWriter.writeHeader (w : ResponseWriter) (code : Nat) : ResponseWriter :=
  match w.status with
  | some _ => w
  | none => { w with status := some code }

/-- Write appends to the body, committing status 200 when none was written. -/
def ResponseWriter.write (w : ResponseWriter) (s : String) : ResponseWriter :=
  let w1 := w.writeHeader 200
  { w1 with body := w1.body ++ s }

/-- http.Error: text content type, nosniff, status code, message plus newline. -/
def httpError (w : ResponseWriter) (msg : String) (code : Nat) : ResponseWriter :=
  let w1 := w.delHeader "Content-Length"
  let w2 := w1.setHeader "Content-Type" "text/plain; charset=utf-8"
  let w3 := w2.setHeader "X-Content-Type-Options" "nosniff"
  let w4 := w3.writeHeader code
  w4.write (msg ++ "\n")

/-- The request value handed to handlers; its content is never inspected by the guard. -/
structure Request where
  method : String
  path : String
deriving DecidableEq

def req0 : Request :=
  { method := "GET", path := "/" }

/-- A Go http.HandlerFunc over an abstract writer type, state passing style. -/
abbrev HandlerFunc (ω ρ : Type) : Type := ω → ρ → ω

/-- The Principal interface: an identity, an authentication flag and a role
membership test over a requested role list. -/
structure Principal where
  ID : String
  Authenticated : Bool
  HasAnyRole : List String → Bool

/-- The Anonymous principal: never authenticated, holds no roles. -/
def Anonymous : Principal :=
  { ID := "anonymous", Authenticated := false, HasAnyRole := fun _ => false }

/-- The Guard: unauthenticated behavior, forbidden behavior and the
principal lookup function. The writer and request types are abstract, as
handlers only pass them through. -/
structure Guard (ω ρ : Type) where
  unauthorized : HandlerFunc ω ρ
  forbidden : HandlerFunc ω ρ
  principal : ρ → Principal

/-- NewGuard: defaults respond 401 Unauthorized and 403 Forbidden via
http.Error, and the lookup always returns Anonymous. -/
def NewGuard : Guard ResponseWriter Request :=
  { unauthorized := fun w _ => httpError w "Unauthorized" 401
    forbidden := fun w _ => httpError w "Forbidden" 403
    principal := fun _ => Anonymous }

/-- PrincipalFn overwrites the principal lookup function. -/
def Guard.PrincipalFn {ω ρ : Type} (g : Guard ω ρ) (fn : ρ → Principal) : Guard ω ρ :=
  { g with principal := fn }

/-- UnauthorizedFn overwrites the unauthenticated behavior. -/
def Guard.UnauthorizedFn {ω ρ : Type} (g : Guard ω ρ) (fn : HandlerFunc ω ρ) : Guard ω ρ :=
  { g with unauthorized := fn }

/-- ForbiddenFn overwrites the forbidden behavior. -/
def Guard.ForbiddenFn {ω ρ : Type} (g : Guard ω ρ) (fn : HandlerFunc ω ρ) : Guard ω ρ :=
  { g with forbidden := fn }

/-- Protect wraps a handler: unauthenticated principals hit the
unauthenticated behavior, authenticated principals without any of the
requested roles hit the forbidden behavior, all others reach the handler. -/
def Guard.Protect {ω ρ : Type} (g : Guard ω ρ) (fn : HandlerFunc ω ρ)
    (roles : List String) : HandlerFunc ω ρ :=
  fun w r =>
    let principal := g.principal r
    if !principal.Authenticated then g.unauthorized w r
    else if !principal.HasAnyRole roles then g.forbidden w r
    else fn w r

/-- Labels for the three behaviors a protected handler can invoke. -/
inductive Behavior where
  | wrapped
  | unauth
  | forbid
deriving DecidableEq

/-- Wrap a handler so that each invocation also logs its label; used to
observe which behaviors a protected handler actually runs. -/
def instrumentH {ω ρ : Type} (t : Behavior) (h : HandlerFunc ω ρ) :
    HandlerFunc (ω × List Behavior) ρ :=
  fun w r => (h w.1 r, w.2 ++ [t])

/-- A guard whose unauthenticated and forbidden behaviors log their
invocations, leaving the principal lookup unchanged. -/
def Guard.instrument {ω ρ : Type} (g : Guard ω ρ) : Guard (ω × List Behavior) ρ :=
  { unauthorized := instrumentH Behavior.unauth g.unauthorized
    forbidden := instrumentH Behavior.forbid g.forbidden
    principal := g.principal }

/-- A principal that is authenticated but reports no role membership at all,
as the TestUser principals in the guard tests do. -/
def authNoRoles : Principal :=
  { ID := "test", Authenticated := true, HasAnyRole := fun _ => false }

/-- A guard looking up that authenticated, role-less principal. -/
def guardAuthNoRoles : Guard ResponseWriter Request :=
  NewGuard.PrincipalFn (fun _ => authNoRoles)

/-- A principal that is authenticated and reports membership for any
requested role list, the empty one included. -/
def authAllRoles : Principal :=
  { ID := "admin", Authenticated := true, HasAnyRole := fun _ => true }

/-- Data passed to a template execution; never inspected by the library. -/
structure TplData where
  val : Nat
deriving DecidableEq

/-- A Go error value, by its message. -/
abbrev GoError : Type := String

/-- The semantics of one parsed template file: on data, either a runtime
error or the rendered output. -/
abbrev TplBody : Type := TplData → Except GoError String

/-- An abstract extension function value; template.FuncMap stores arbitrary
values and only their identity matters to the claims. -/
structure FuncVal where
  id : Nat
deriving DecidableEq

/-- template.FuncMap: names to extension values, Go map semantics. -/
abbrev FuncMap : Type := List (String × FuncVal)

/-- The engine template object: its function table and the named templates
defined so far. -/
structure Template where
  funcs : FuncMap
  defs : List (String × TplBody)

/-- template.New with a function table attached: no definitions yet. -/
def Template.new (fm : FuncMap) : Template :=
  { funcs := fm, defs := [] }

/-- ExecuteTemplate: an unknown name errors without output; a runtime error
from the body leaves the writer unchanged; success streams the output. -/
def Template.ExecuteTemplate (t : Template) (w : ResponseWriter) (name : String)
    (data : TplData) : ResponseWriter × Option GoError :=
  match mapLookup t.defs name with
  | none => (w, some ("html/template: " ++ name ++ " is undefined"))
  | some body =>
    match body data with
    | Except.error e => (w, some e)
    | Except.ok out => (w.write out, none)

/-- Boolean test that the first character list is an initial segment of the
second. -/
def listIsPre : List Char → List Char → Bool
  | [], _ => true
  | _ :: _, [] => false
  | a :: xs, b :: ys => (a == b) && listIsPre xs ys

/-- strings.TrimPfx semantics: remove the leading occurrence of pre when s
starts with it, otherwise return s unchanged. -/
def goTrimPfx (s pre : String) : String :=
  if listIsPre pre.toList s.toList then (s.toList.drop pre.toList.length).asString else s

/-- strings.TrimLeft semantics: remove all leading characters of s contained
in the cutset. -/
def goTrimLeft (s cutset : String) : String :=
  (s.toList.dropWhile (fun c => cutset.toList.contains c)).asString

/-- One filesystem entry as seen by filepath.Walk, in visit order; content is
an error exactly when ioutil.ReadFile would fail on that path. -/
structure FsEntry where
  path : String
  isDir : Bool
  content : Except GoError String

/-- The directory tree walked by Load, as the list of entries in walk order. -/
abbrev FileSystem : Type := List FsEntry

/-- The walk performed by Load in the current revision: directories are
skipped; each regular file is read and parsed, registering its body under
the file path with the root directory removed and leading dot or slash
characters trimmed. A read error aborts the walk keeping the registry
built so far; a parse error aborts leaving the nil registry that Parse
returns. -/
def walkLoad (parse : String → Except GoError TplBody) (dir : String) :
    FileSystem → Template → Option Template × Option GoError
  | [], t => (some t, none)
  | entry :: rest, t =>
    if entry.isDir then walkLoad parse dir rest t
    else
      match entry.content with
      | Except.error e => (some t, some e)
      | Except.ok b =>
        match parse b with
        | Except.error e => (none, some e)
        | Except.ok body =>
          walkLoad parse dir rest
            { t with defs := mapInsert t.defs (goTrimLeft (goTrimPfx entry.path dir) "./") body }

/-- The walk performed by Load in the earlier single-file revision: the
registered name only has the root directory removed. -/
def walkLoadV0 (parse : String → Except GoError TplBody) (dir : String) :
    FileSystem → Template → Option Template × Option GoError
  | [], t => (some t, none)
  | entry :: rest, t =>
    if entry.isDir then walkLoadV0 parse dir rest t
    else
      match entry.content with
      | Except.error e => (some t, some e)
      | Except.ok b =>
        match parse b with
        | Except.error e => (none, some e)
        | Except.ok body =>
          walkLoadV0 parse dir rest
            { t with defs := mapInsert t.defs (goTrimPfx entry.path dir) body }

/-- The template collection: source directory, the engine template once
assigned, the extension function table, and the reload flag. -/
structure Templates where
  dir : String
  tpl : Option Template
  funcmap : FuncMap
  reload : Bool

def divFnVal : FuncVal :=
  { id := 0 }

def dictFnVal : FuncVal :=
  { id := 1 }

/-- NewTemplates in the current revision: nothing loaded yet, built-in div
and dict helpers in the function table. -/
def NewTemplates (dir : String) (reload : Bool) : Templates :=
  { dir := dir, tpl := none,
    funcmap := [("div", divFnVal), ("dict", dictFnVal)], reload := reload }

/-- Funcs merges the argument table into the function table of the
collection, later entries overwriting earlier ones of the same name. -/
def Templates.Funcs (tpl : Templates) (funcmap : FuncMap) : Templates :=
  { tpl with funcmap := funcmap.foldl (fun m kv => mapInsert m kv.1 kv.2) tpl.funcmap }

/-- Load replaces the engine template by a fresh one carrying the current
function table, then walks the source directory; the walk result and error
are returned with the collection. -/
def Templates.Load (parse : String → Except GoError TplBody) (fs : FileSystem)
    (tpl : Templates) : Templates × Option GoError :=
  let res := walkLoad parse tpl.dir fs (Template.new tpl.funcmap)
  ({ tpl with tpl := res.1 }, res.2)

/-- Load of the earlier single-file revision, with its naming rule. -/
def Templates.LoadV0 (parse : String → Except GoError TplBody) (fs : FileSystem)
    (tpl : Templates) : Templates × Option GoError :=
  let res := walkLoadV0 parse tpl.dir fs (Template.new tpl.funcmap)
  ({ tpl with tpl := res.1 }, res.2)

/-- HTML renders a named template: when the engine template is nil or reload
is set, a full Load runs first and its error is returned before anything is
written; then the content type header and the status code are written, and
the named template is executed into the writer. A nil engine template at
execution time is the nil dereference the Go code would hit there. -/
def Templates.HTML (parse : String → Except GoError TplBody) (fs : FileSystem)
    (tpl : Templates) (w : ResponseWriter) (r : Request) (code : Nat)
    (name : String) (data : TplData) : Templates × ResponseWriter × Option GoError :=
  match (if tpl.tpl.isNone || tpl.reload then Templates.Load parse fs tpl else (tpl, none)) with
  | (tpl1, some e) => (tpl1, w, some e)
  | (tpl1, none) =>
    let w1 := (w.addHeader "content-type" "text/html; charset=utf-8").writeHeader code
    match tpl1.tpl with
    | none => (tpl1, w1, some "runtime error: invalid memory address or nil pointer dereference")
    | some t =>
      let res := t.ExecuteTemplate w1 name data
      (tpl1, res.1, res.2)

/-- A parse oracle for fixtures: every file parses, and its body renders the
file content for any data. -/
def parseAll : String → Except GoError TplBody :=
  fun s => Except.ok (fun _ => Except.ok s)

def d0 : TplData :=
  { val := 0 }

/-- A regular file that reads and parses fine. -/
def entryA : FsEntry :=
  { path := "a.html", isDir := false, content := Except.ok "A" }

/-- A regular file whose read fails. -/
def entryBFail : FsEntry :=
  { path := "b.html", isDir := false, content := Except.error "read b.html failed" }

/-- Another regular file that reads and parses fine. -/
def entryC : FsEntry :=
  { path := "c.html", isDir := false, content := Except.ok "C" }

/-- Fixture for the reload-condition counterexample: the first regular file
is fine, reading the second fails. -/
def fsC4 : FileSystem :=
  [entryA, entryBFail]

/-- A collection over the root directory with reload disabled. -/
def tplC4 : Templates :=
  NewTemplates "" false

/-- The collection state after the first render attempt hit the read error:
the registry is the non-nil partly built one the aborted walk left behind. -/
def tplC4a : Templates :=
  (Templates.HTML parseAll fsC4 tplC4 newRecorder req0 200 "a.html" d0).1

/-- Fixture template for witnesses: one definition named a.html rendering A. -/
def t1Fix : Template :=
  { funcs := (NewTemplates "" false).funcmap,
    defs := [("a.html", fun _ => Except.ok "A")] }

/-- A loaded collection with reload disabled, for the execution-order witness. -/
def tplLoaded : Templates :=
  { dir := "", tpl := some t1Fix, funcmap := (NewTemplates "" false).funcmap, reload := false }

/-- Fixture directory for the naming witness: one file under templates. -/
def fsC7 : FileSystem :=
  [ { path := "templates/a.html", isDir := false, content := Except.ok "A" } ]

/-- A collection rooted at the templates directory. -/
def tplDirFix : Templates :=
  NewTemplates "templates" false

/-- The engine template the naming witness expects after loading fsC7. -/
def tC7 : Template :=
  { funcs := tplDirFix.funcmap, defs := [("a.html", fun _ => Except.ok "A")] }

/-- An extension function table registered for the function-table witness. -/
def fmC8 : FuncMap :=
  [("upper", { id := 7 })]

/-- The collection after registering that table. -/
def tplC8 : Templates :=
  Templates.Funcs (NewTemplates "" false) fmC8

/-- The engine template the function-table witness expects after loading. -/
def tC8 : Template :=
  { funcs := tplC8.funcmap, defs := [("a.html", fun _ => Except.ok "A")] }

/-- BindingResult: the Go map from field name to one message, as an
association list. -/
abbrev BindingResult : Type := List (String × String)

/-- Valid: the binding succeeded when the map is empty. -/
def BindingResult.Valid (br : BindingResult) : Bool :=
  br.length == 0

/-- Fail: store the message for the field, Go map assignment. -/
def BindingResult.Fail (br : BindingResult) (field err : String) : BindingResult :=
  mapInsert br field err

/-- Include: copy every entry of the other result into the receiver via Fail. -/
def BindingResult.Include (br other : BindingResult) : BindingResult :=
  other.foldl (fun acc p => BindingResult.Fail acc p.1 p.2) br

/-- One mutation step of a binding result: a Fail call or an Include call. -/
inductive BrOp where
  | fail (field err : String)
  | incl (other : BindingResult)

def applyOp (br : BindingResult) : BrOp → BindingResult
  | BrOp.fail f e => BindingResult.Fail br f e
  | BrOp.incl o => BindingResult.Include br o

def applyOps (br : BindingResult) (ops : List BrOp) : BindingResult :=
  ops.foldl applyOp br

/-- The call br.Include(other) on a heap of Go maps addressed by reference:
maps are reference values, so the receiver and the argument may alias. The
range loop snapshots the entries of the argument and stores each into the
receiver map. -/
def includeExec (rb ro : Nat) (heap : Nat → BindingResult) : Nat → BindingResult :=
  (heap ro).foldl
    (fun h p => fun i => if i = rb then BindingResult.Fail (h rb) p.1 p.2 else h i) heap

theorem mapLookup_mapInsert {β : Type} (m : List (String × β)) (k n : String) (v : β) :
    mapLookup (mapInsert m k v) n = if k = n then some v else mapLookup m n := by
  induction m with
  | nil => simp [mapInsert, mapLookup]
  | cons p rest ih =>
    obtain ⟨k0, v0⟩ := p
    by_cases h0 : k0 = k
    · subst h0
      by_cases h1 : k0 = n <;> simp [mapInsert, mapLookup, h1]
    · by_cases h1 : k0 = n
      · subst h1
        have hk : ¬k = k0 := fun h => h0 h.symm
        simp [mapInsert, h0, mapLookup, hk]
      · simp [mapInsert, h0, mapLookup, h1, ih]

/-- Claim C1: for every request, the handler returned by Protect invokes
exactly one of the three behaviors: the unauthenticated behavior when the
looked-up principal is not authenticated (never the wrapped handler nor
the forbidden behavior, for any role list); the forbidden behavior when
the principal is authenticated but HasAnyRole on the requested roles is
false; the wrapped handler when the principal is authenticated and
HasAnyRole is true. The invocation log is a singleton in each case and
the writer effect is exactly that of the invoked behavior. -/
theorem protect_invokes_exactly_one {ω ρ : Type} (g : Guard ω ρ)
    (fn : HandlerFunc ω ρ) (roles : List String) (w : ω) (r : ρ) :
    ((g.principal r).Authenticated = false →
      g.instrument.Protect (instrumentH Behavior.wrapped fn) roles (w, []) r
        = (g.unauthorized w r, [Behavior.unauth]))
    ∧ ((g.principal r).Authenticated = true → (g.principal r).HasAnyRole roles = false →
      g.instrument.Protect (instrumentH Behavior.wrapped fn) roles (w, []) r
        = (g.forbidden w r, [Behavior.forbid]))
    ∧ ((g.principal r).Authenticated = true → (g.principal r).HasAnyRole roles = true →
      g.instrument.Protect (instrumentH Behavior.wrapped fn) roles (w, []) r
        = (fn w r, [Behavior.wrapped])) := by
  refine ⟨fun h1 => ?_, fun h1 h2 => ?_, fun h1 h2 => ?_⟩ <;>
    simp [Guard.Protect, Guard.instrument, instrumentH, h1]
  · simp [h2]
  · simp [h2]

/-- Witness for C1: the default guard on a concrete request invokes only the
unauthenticated behavior. -/
theorem protect_invokes_exactly_one_witness :
    NewGuard.instrument.Protect (instrumentH Behavior.wrapped (fun w _ => w))
        ["anything"] (newRecorder, []) req0
      = (httpError newRecorder "Unauthorized" 401, [Behavior.unauth]) :=
  (protect_invokes_exactly_one NewGuard (fun w _ => w) ["anything"] newRecorder req0).1 rfl

/-- Counterexample to C2 as stated: an authenticated principal whose
HasAnyRole returns false on the empty list is sent to the forbidden
behavior by Protect with an empty required-role list; the wrapped handler
is not invoked. -/
theorem protect_empty_roles_cex :
    authNoRoles.Authenticated = true
    ∧ guardAuthNoRoles.instrument.Protect
          (instrumentH Behavior.wrapped (fun w _ => w.write "OK")) [] (newRecorder, []) req0
        = (httpError newRecorder "Forbidden" 403, [Behavior.forbid])
    ∧ [Behavior.forbid] ≠ [Behavior.wrapped] := by
  refine ⟨rfl, rfl, by decide⟩

/-- Claim C2 (amended): for every authenticated principal, Protect with an
empty required-role list delegates to the wrapped handler exactly when the
principal HasAnyRole function returns true on the empty list; when it
returns false, the forbidden behavior is invoked instead. Protect passes
the empty role list to HasAnyRole unchanged. -/
theorem protect_empty_roles {ω ρ : Type} (g : Guard ω ρ) (fn : HandlerFunc ω ρ)
    (w : ω) (r : ρ) (hauth : (g.principal r).Authenticated = true) :
    ((g.principal r).HasAnyRole [] = true →
      g.instrument.Protect (instrumentH Behavior.wrapped fn) [] (w, []) r
        = (fn w r, [Behavior.wrapped]))
    ∧ ((g.principal r).HasAnyRole [] = false →
      g.instrument.Protect (instrumentH Behavior.wrapped fn) [] (w, []) r
        = (g.forbidden w r, [Behavior.forbid])) := by
  refine ⟨fun h2 => ?_, fun h2 => ?_⟩ <;>
    simp [Guard.Protect, Guard.instrument, instrumentH, hauth, h2]

/-- Witness for the amended C2: a principal answering true on the empty role
list reaches the wrapped handler. -/
theorem protect_empty_roles_witness :
    (NewGuard.PrincipalFn (fun _ => authAllRoles)).instrument.Protect
        (instrumentH Behavior.wrapped (fun w _ => w.write "OK")) [] (newRecorder, []) req0
      = ((newRecorder.write "OK"), [Behavior.wrapped]) :=
  (protect_empty_roles (NewGuard.PrincipalFn (fun _ => authAllRoles))
    (fun w _ => w.write "OK") newRecorder req0 rfl).1 rfl

/-- Claim C3: the completely unconfigured guard never invokes the wrapped
handler and, from a fresh recorder, responds with status 401 and body
exactly Unauthorized plus newline; and a guard whose principal is
authenticated but whose HasAnyRole is false on the requested roles, with
the default forbidden behavior, responds with status 403 and body exactly
Forbidden plus newline. -/
theorem default_guard_responses :
    (∀ (fn : HandlerFunc ResponseWriter Request) (roles : List String) (r : Request),
      NewGuard.instrument.Protect (instrumentH Behavior.wrapped fn) roles (newRecorder, []) r
        = (httpError newRecorder "Unauthorized" 401, [Behavior.unauth])
      ∧ (httpError newRecorder "Unauthorized" 401).status = some 401
      ∧ (httpError newRecorder "Unauthorized" 401).body = "Unauthorized\n")
    ∧ (∀ (p : Principal) (fn : HandlerFunc ResponseWriter Request)
        (roles : List String) (r : Request),
      p.Authenticated = true → p.HasAnyRole roles = false →
      (NewGuard.PrincipalFn (fun _ => p)).instrument.Protect
          (instrumentH Behavior.wrapped fn) roles (newRecorder, []) r
        = (httpError newRecorder "Forbidden" 403, [Behavior.forbid])
      ∧ (httpError newRecorder "Forbidden" 403).status = some 403
      ∧ (httpError newRecorder "Forbidden" 403).body = "Forbidden\n") := by
  constructor
  · intro fn roles r
    refine ⟨?_, rfl, rfl⟩
    simp [Guard.Protect, Guard.instrument, instrumentH, NewGuard, Anonymous]
  · intro p fn roles r h1 h2
    refine ⟨?_, rfl, rfl⟩
    simp [Guard.Protect, Guard.instrument, instrumentH, Guard.PrincipalFn, NewGuard, h1, h2]

/-- Witness for C3: a concrete authenticated, role-less principal under the
default forbidden behavior yields the 403 response. -/
theorem default_guard_responses_witness :
    (NewGuard.PrincipalFn (fun _ => authNoRoles)).instrument.Protect
        (instrumentH Behavior.wrapped (fun w _ => w)) ["anything"] (newRecorder, []) req0
      = (httpError newRecorder "Forbidden" 403, [Behavior.forbid])
    ∧ (httpError newRecorder "Forbidden" 403).status = some 403
    ∧ (httpError newRecorder "Forbidden" 403).body = "Forbidden\n" :=
  default_guard_responses.2 authNoRoles (fun w _ => w) ["anything"] req0 rfl rfl

theorem walkLoad_append_ok (parse : String → Except GoError TplBody) (dir : String)
    (xs ys : FileSystem) (t t1 : Template)
    (h : walkLoad parse dir xs t = (some t1, none)) :
    walkLoad parse dir (xs ++ ys) t = walkLoad parse dir ys t1 := by
  induction xs generalizing t with
  | nil =>
    simp [walkLoad] at h
    rw [List.nil_append, h]
  | cons entry rest ih =>
    cases hd : entry.isDir with
    | true =>
      simp only [walkLoad, hd, if_true] at h
      simpa [walkLoad, hd] using ih t h
    | false =>
      cases hc : entry.content with
      | error e => simp [walkLoad, hd, hc] at h
      | ok b =>
        cases hp : parse b with
        | error e => simp [walkLoad, hd, hc, hp] at h
        | ok body =>
          simp only [walkLoad, hd, hc, hp, Bool.false_eq_true, if_false] at h
          simpa [walkLoad, hd, hc, hp] using ih _ h

/-- Claim C5: when reading or parsing a regular file fails during Load, the
walk stops at that file: Load returns that file error, and the resulting
registry is either exactly the one built from the entries before the
failing file (read error) or nil (parse error); no entry after the failing
file is registered. -/
theorem load_aborts_on_failure (parse : String → Except GoError TplBody)
    (tpl : Templates) (pre post : FileSystem) (e : FsEntry) (t1 : Template)
    (msg : GoError)
    (hpre : walkLoad parse tpl.dir pre (Template.new tpl.funcmap) = (some t1, none))
    (hreg : e.isDir = false)
    (hfail : e.content = Except.error msg
      ∨ ∃ b, e.content = Except.ok b ∧ parse b = Except.error msg) :
    (Templates.Load parse (pre ++ e :: post) tpl).2 = some msg
    ∧ ((Templates.Load parse (pre ++ e :: post) tpl).1.tpl = some t1
      ∨ (Templates.Load parse (pre ++ e :: post) tpl).1.tpl = none) := by
  have hstep : walkLoad parse tpl.dir (pre ++ e :: post) (Template.new tpl.funcmap)
      = walkLoad parse tpl.dir (e :: post) t1 :=
    walkLoad_append_ok parse tpl.dir pre (e :: post) (Template.new tpl.funcmap) t1 hpre
  rcases hfail with hr | ⟨b, hb, hp⟩
  · have hone : walkLoad parse tpl.dir (e :: post) t1 = (some t1, some msg) := by
      simp [walkLoad, hreg, hr]
    refine ⟨?_, Or.inl ?_⟩ <;> simp [Templates.Load, hstep, hone]
  · have hone : walkLoad parse tpl.dir (e :: post) t1 = (none, some msg) := by
      simp [walkLoad, hreg, hb, hp]
    refine ⟨?_, Or.inr ?_⟩ <;> simp [Templates.Load, hstep, hone]

/-- Witness for C5: a concrete walk with a good file, then a read failure,
then another good file aborts with the read error keeping only the first
registration. -/
theorem load_aborts_on_failure_witness :
    (Templates.Load parseAll ([entryA] ++ entryBFail :: [entryC]) (NewTemplates "" false)).2
        = some "read b.html failed"
    ∧ ((Templates.Load parseAll ([entryA] ++ entryBFail :: [entryC])
          (NewTemplates "" false)).1.tpl = some t1Fix
      ∨ (Templates.Load parseAll ([entryA] ++ entryBFail :: [entryC])
          (NewTemplates "" false)).1.tpl = none) :=
  load_aborts_on_failure parseAll (NewTemplates "" false) [entryA] [entryC] entryBFail
    t1Fix "read b.html failed" rfl rfl (Or.inl rfl)

/-- Counterexample to C4 as stated: after a first render whose Load aborted
on a file read error, no template has ever been successfully loaded and
reload is disabled, yet the next render does not perform a Load: it renders
from the non-nil partly built registry the aborted walk left behind (body A with
no error), while a render forced through a full Load over the now-empty
directory would fail with an undefined template. -/
theorem html_reload_condition_cex :
    (Templates.HTML parseAll fsC4 tplC4 newRecorder req0 200 "a.html" d0).2.2
        = some "read b.html failed"
    ∧ tplC4a.reload = false
    ∧ tplC4a.tpl.isNone = false
    ∧ (Templates.HTML parseAll [] tplC4a newRecorder req0 200 "a.html" d0).2.2 = none
    ∧ (Templates.HTML parseAll [] tplC4a newRecorder req0 200 "a.html" d0).2.1.body = "A"
    ∧ (Templates.HTML parseAll []
          { tplC4a with tpl := none } newRecorder req0 200 "a.html" d0).2.2
        = some ("html/template: " ++ "a.html" ++ " is undefined") :=
  ⟨rfl, rfl, rfl, rfl, rfl, rfl⟩

/-- Claim C4 (amended): a render performs a full Load first exactly when the
reload flag is enabled or the stored engine template is nil; when that Load
fails, the render returns the Load error and stops before writing the
status header, the content type header, or any body bytes (the writer is
returned untouched). When neither the flag is set nor the registry nil, no
Load is performed: the render result does not depend on the filesystem at
all. -/
theorem html_reload_condition (parse : String → Except GoError TplBody)
    (fs fs2 : FileSystem) (tpl : Templates) (w : ResponseWriter) (r : Request)
    (code : Nat) (name : String) (data : TplData) :
    ((tpl.tpl.isNone || tpl.reload) = true →
      (∀ tpl1 e, Templates.Load parse fs tpl = (tpl1, some e) →
        Templates.HTML parse fs tpl w r code name data = (tpl1, w, some e))
      ∧ (Templates.HTML parse fs tpl w r code name data).1
          = (Templates.Load parse fs tpl).1)
    ∧ ((tpl.tpl.isNone || tpl.reload) = false →
      Templates.HTML parse fs tpl w r code name data
        = Templates.HTML parse fs2 tpl w r code name data) := by
  constructor
  · intro hcond
    constructor
    · intro tpl1 e hLoad
      simp [Templates.HTML, hcond, hLoad]
    · rcases hL : Templates.Load parse fs tpl with ⟨tpl1, err⟩
      cases err with
      | some e => simp [Templates.HTML, hcond, hL]
      | none =>
        simp only [Templates.HTML, hcond, if_true, hL]
        cases ht : tpl1.tpl <;> simp
  · intro hcond
    simp [Templates.HTML, hcond]

/-- Witness for the amended C4: the failing-load fixture returns the read
error with the recorder untouched. -/
theorem html_reload_condition_witness :
    Templates.HTML parseAll fsC4 tplC4 newRecorder req0 200 "a.html" d0
      = (tplC4a, newRecorder, some "read b.html failed") :=
  ((html_reload_condition parseAll fsC4 [] tplC4 newRecorder req0 200 "a.html" d0).1
    rfl).1 tplC4a "read b.html failed" rfl

theorem executeTemplate_preserves (t : Template) (w : ResponseWriter)
    (name : String) (data : TplData) (c : Nat) (h : w.status = some c) :
    (t.ExecuteTemplate w name data).1.status = some c
    ∧ (t.ExecuteTemplate w name data).1.headers = w.headers := by
  unfold Template.ExecuteTemplate
  cases hm : mapLookup t.defs name with
  | none => simp [h]
  | some body =>
    cases hb : body data with
    | error e => simp [hb, h]
    | ok out => simp [hb, ResponseWriter.write, ResponseWriter.writeHeader, h]

/-- Claim C6: whenever a render reaches template execution (any required
Load succeeded and the registry is an engine template), the status code
and the text/html content type header are written before the named
template is executed: the render result is exactly the execution over the
writer that already carries them, its status is the requested code and the
content type header is present even when execution returns an error
(unknown name or a runtime failure), and that error is passed to the
caller. -/
theorem html_header_before_exec (parse : String → Except GoError TplBody)
    (fs : FileSystem) (tpl tpl1 : Templates) (t : Template) (w : ResponseWriter)
    (r : Request) (code : Nat) (name : String) (data : TplData)
    (hload : (if tpl.tpl.isNone || tpl.reload then Templates.Load parse fs tpl
      else (tpl, none)) = (tpl1, none))
    (ht : tpl1.tpl = some t) (hw : w.status = none) :
    Templates.HTML parse fs tpl w r code name data
      = (tpl1,
        (t.ExecuteTemplate ((w.addHeader "content-type" "text/html; charset=utf-8").writeHeader
          code) name data).1,
        (t.ExecuteTemplate ((w.addHeader "content-type" "text/html; charset=utf-8").writeHeader
          code) name data).2)
    ∧ (Templates.HTML parse fs tpl w r code name data).2.1.status = some code
    ∧ ("content-type", "text/html; charset=utf-8")
        ∈ (Templates.HTML parse fs tpl w r code name data).2.1.headers := by
  have hs1 : ((w.addHeader "content-type" "text/html; charset=utf-8").writeHeader code).status
      = some code := by
    simp [ResponseWriter.addHeader, ResponseWriter.writeHeader, hw]
  have hh1 : ((w.addHeader "content-type" "text/html; charset=utf-8").writeHeader code).headers
      = w.headers ++ [("content-type", "text/html; charset=utf-8")] := by
    simp [ResponseWriter.addHeader, ResponseWriter.writeHeader, hw]
  have hexec := executeTemplate_preserves t
    ((w.addHeader "content-type" "text/html; charset=utf-8").writeHeader code) name data
    code hs1
  have hmain : Templates.HTML parse fs tpl w r code name data
      = (tpl1,
        (t.ExecuteTemplate ((w.addHeader "content-type" "text/html; charset=utf-8").writeHeader
          code) name data).1,
        (t.ExecuteTemplate ((w.addHeader "content-type" "text/html; charset=utf-8").writeHeader
          code) name data).2) := by
    simp [Templates.HTML, hload, ht]
  refine ⟨hmain, ?_, ?_⟩
  · rw [hmain]
    exact hexec.1
  · rw [hmain]
    simp only [hexec.2, hh1]
    exact List.mem_append.mpr (Or.inr (List.mem_singleton.mpr rfl))

/-- Witness for C6: rendering an unknown name on a loaded collection writes
the status code and still returns the undefined-template error. -/
theorem html_header_before_exec_witness :
    (Templates.HTML parseAll [] tplLoaded newRecorder req0 200 "missing.html" d0).2.1.status
        = some 200
    ∧ (Templates.HTML parseAll [] tplLoaded newRecorder req0 200 "missing.html" d0).2.2
        = some ("html/template: " ++ "missing.html" ++ " is undefined") := by
  have h := html_header_before_exec parseAll [] tplLoaded tplLoaded t1Fix newRecorder req0
    200 "missing.html" d0 rfl rfl rfl
  refine ⟨h.2.1, ?_⟩
  rw [h.1]
  rfl

theorem walkLoad_keys (parse : String → Except GoError TplBody) (dir : String)
    (fs : FileSystem) (t t1 : Template)
    (h : walkLoad parse dir fs t = (some t1, none)) (n : String) :
    (mapLookup t1.defs n).isSome = true ↔
      ((mapLookup t.defs n).isSome = true
        ∨ ∃ e, e ∈ fs ∧ e.isDir = false
            ∧ goTrimLeft (goTrimPfx e.path dir) "./" = n) := by
  induction fs generalizing t with
  | nil =>
    simp [walkLoad] at h
    subst h
    simp
  | cons entry rest ih =>
    cases hd : entry.isDir with
    | true =>
      simp only [walkLoad, hd, if_true] at h
      rw [ih t h]
      simp [List.mem_cons, hd]
    | false =>
      cases hc : entry.content with
      | error e => simp [walkLoad, hd, hc] at h
      | ok b =>
        cases hp : parse b with
        | error e => simp [walkLoad, hd, hc, hp] at h
        | ok body =>
          simp only [walkLoad, hd, hc, hp, Bool.false_eq_true, if_false] at h
          rw [ih _ h]
          simp only [mapLookup_mapInsert, List.mem_cons]
          constructor
          · rintro (hx | hx)
            · by_cases he : goTrimLeft (goTrimPfx entry.path dir) "./" = n
              · exact Or.inr ⟨entry, Or.inl rfl, hd, he⟩
              · rw [if_neg he] at hx
                exact Or.inl hx
            · rcases hx with ⟨e, he1, he2, he3⟩
              exact Or.inr ⟨e, Or.inr he1, he2, he3⟩
          · rintro (hx | ⟨e, (rfl | he1), he2, he3⟩)
            · left
              by_cases he : goTrimLeft (goTrimPfx entry.path dir) "./" = n
              · simp [he]
              · simpa [if_neg he] using hx
            · left
              simp [he3]
            · exact Or.inr ⟨e, he1, he2, he3⟩

theorem walkLoadV0_keys (parse : String → Except GoError TplBody) (dir : String)
    (fs : FileSystem) (t t1 : Template)
    (h : walkLoadV0 parse dir fs t = (some t1, none)) (n : String) :
    (mapLookup t1.defs n).isSome = true ↔
      ((mapLookup t.defs n).isSome = true
        ∨ ∃ e, e ∈ fs ∧ e.isDir = false ∧ goTrimPfx e.path dir = n) := by
  induction fs generalizing t with
  | nil =>
    simp [walkLoadV0] at h
    subst h
    simp
  | cons entry rest ih =>
    cases hd : entry.isDir with
    | true =>
      simp only [walkLoadV0, hd, if_true] at h
      rw [ih t h]
      simp [List.mem_cons, hd]
    | false =>
      cases hc : entry.content with
      | error e => simp [walkLoadV0, hd, hc] at h
      | ok b =>
        cases hp : parse b with
        | error e => simp [walkLoadV0, hd, hc, hp] at h
        | ok body =>
          simp only [walkLoadV0, hd, hc, hp, Bool.false_eq_true, if_false] at h
          rw [ih _ h]
          simp only [mapLookup_mapInsert, List.mem_cons]
          constructor
          · rintro (hx | hx)
            · by_cases he : goTrimPfx entry.path dir = n
              · exact Or.inr ⟨entry, Or.inl rfl, hd, he⟩
              · rw [if_neg he] at hx
                exact Or.inl hx
            · rcases hx with ⟨e, he1, he2, he3⟩
              exact Or.inr ⟨e, Or.inr he1, he2, he3⟩
          · rintro (hx | ⟨e, (rfl | he1), he2, he3⟩)
            · left
              by_cases he : goTrimPfx entry.path dir = n
              · simp [he]
              · simpa [if_neg he] using hx
            · left
              simp [he3]
            · exact Or.inr ⟨e, he1, he2, he3⟩

/-- Claim C7: after a successful Load, the registered template names are
exactly the filesystem paths of the regular files walked, with the root
directory removed; in the current (later) loader revision leading dot and
slash characters are additionally trimmed from the remainder, in the
earlier revision they are kept. -/
theorem load_registered_names (parse : String → Except GoError TplBody)
    (tpl tpl1 : Templates) (fs : FileSystem) (t : Template) (n : String) :
    (Templates.Load parse fs tpl = (tpl1, none) → tpl1.tpl = some t →
      ((mapLookup t.defs n).isSome = true ↔
        ∃ e, e ∈ fs ∧ e.isDir = false
          ∧ goTrimLeft (goTrimPfx e.path tpl.dir) "./" = n))
    ∧ (Templates.LoadV0 parse fs tpl = (tpl1, none) → tpl1.tpl = some t →
      ((mapLookup t.defs n).isSome = true ↔
        ∃ e, e ∈ fs ∧ e.isDir = false ∧ goTrimPfx e.path tpl.dir = n)) := by
  constructor
  · intro hL ht
    rcases hw : walkLoad parse tpl.dir fs (Template.new tpl.funcmap) with ⟨ot, oe⟩
    rw [Templates.Load, hw] at hL
    obtain ⟨h1, h2⟩ := Prod.mk.injEq .. ▸ hL
    subst h2
    rw [← h1] at ht
    simp only at ht
    rw [ht] at hw
    have := walkLoad_keys parse tpl.dir fs (Template.new tpl.funcmap) t hw n
    simpa [Template.new, mapLookup] using this
  · intro hL ht
    rcases hw : walkLoadV0 parse tpl.dir fs (Template.new tpl.funcmap) with ⟨ot, oe⟩
    rw [Templates.LoadV0, hw] at hL
    obtain ⟨h1, h2⟩ := Prod.mk.injEq .. ▸ hL
    subst h2
    rw [← h1] at ht
    simp only at ht
    rw [ht] at hw
    have := walkLoadV0_keys parse tpl.dir fs (Template.new tpl.funcmap) t hw n
    simpa [Template.new, mapLookup] using this

/-- Witness for C7: loading one file under the templates root registers it
under the fully trimmed name. -/
theorem load_registered_names_witness :
    (mapLookup tC7.defs "a.html").isSome = true ↔
      ∃ e, e ∈ fsC7 ∧ e.isDir = false
        ∧ goTrimLeft (goTrimPfx e.path tplDirFix.dir) "./" = "a.html" :=
  (load_registered_names parseAll tplDirFix
    (Templates.Load parseAll fsC7 tplDirFix).1 fsC7 tC7 "a.html").1 rfl rfl

theorem mapLookup_foldl_insert_notmem {β : Type} (l m0 : List (String × β)) (n : String)
    (h : n ∉ l.map Prod.fst) :
    mapLookup (l.foldl (fun m kv => mapInsert m kv.1 kv.2) m0) n = mapLookup m0 n := by
  induction l generalizing m0 with
  | nil => rfl
  | cons kv rest ih =>
    simp only [List.map_cons, List.mem_cons] at h
    push_neg at h
    rw [List.foldl_cons, ih _ h.2, mapLookup_mapInsert]
    exact if_neg (fun he => h.1 he.symm)

theorem mapLookup_foldl_insert {β : Type} (l m0 : List (String × β)) (n : String) (v : β)
    (hnd : (l.map Prod.fst).Nodup) (h : mapLookup l n = some v) :
    mapLookup (l.foldl (fun m kv => mapInsert m kv.1 kv.2) m0) n = some v := by
  induction l generalizing m0 with
  | nil => simp [mapLookup] at h
  | cons kv rest ih =>
    simp only [List.map_cons, List.nodup_cons] at hnd
    by_cases hk : kv.1 = n
    · have hv : kv.2 = v := by
        simpa [mapLookup, hk] using h
      have hnotin : n ∉ rest.map Prod.fst := by
        rw [← hk]
        exact hnd.1
      rw [List.foldl_cons, mapLookup_foldl_insert_notmem rest _ n hnotin,
        mapLookup_mapInsert, if_pos hk, hv]
    · have h2 : mapLookup rest n = some v := by
        simpa [mapLookup, hk] using h
      rw [List.foldl_cons]
      exact ih _ hnd.2 h2

theorem walkLoad_funcs (parse : String → Except GoError TplBody) (dir : String)
    (fs : FileSystem) (t t1 : Template)
    (h : (walkLoad parse dir fs t).1 = some t1) : t1.funcs = t.funcs := by
  induction fs generalizing t with
  | nil =>
    simp [walkLoad] at h
    rw [← h]
  | cons entry rest ih =>
    cases hd : entry.isDir with
    | true =>
      simp only [walkLoad, hd, if_true] at h
      exact ih t h
    | false =>
      cases hc : entry.content with
      | error e =>
        simp only [walkLoad, hd, hc, Bool.false_eq_true, if_false] at h
        rw [← Option.some.inj h]
      | ok b =>
        cases hp : parse b with
        | error e => simp [walkLoad, hd, hc, hp] at h
        | ok body =>
          simp only [walkLoad, hd, hc, hp, Bool.false_eq_true, if_false] at h
          have hgo := ih _ h
          simpa using hgo

/-- Claim C8: every extension function registered via Funcs before a Load is
present under its registered name in the function table used by that Load
(the engine template built by the Load carries exactly the merged table),
and registering two functions under the same name keeps the later one. -/
theorem funcs_registered_for_load (parse : String → Except GoError TplBody)
    (tpl tpl1 : Templates) (m : FuncMap) (fs : FileSystem) (t : Template)
    (n : String) (v : FuncVal) (err : Option GoError) :
    ((m.map Prod.fst).Nodup → mapLookup m n = some v →
      Templates.Load parse fs (Templates.Funcs tpl m) = (tpl1, err) →
      tpl1.tpl = some t →
      mapLookup t.funcs n = some v)
    ∧ (∀ v1 v2 : FuncVal,
      mapLookup ((Templates.Funcs (Templates.Funcs tpl [(n, v1)]) [(n, v2)]).funcmap) n
        = some v2) := by
  constructor
  · intro hnd hm hL ht
    rcases hw : walkLoad parse (Templates.Funcs tpl m).dir fs
        (Template.new (Templates.Funcs tpl m).funcmap) with ⟨ot, oe⟩
    rw [Templates.Load, hw] at hL
    obtain ⟨h1, h2⟩ := Prod.mk.injEq .. ▸ hL
    rw [← h1] at ht
    simp only at ht
    have hfun : t.funcs = (Template.new (Templates.Funcs tpl m).funcmap).funcs := by
      apply walkLoad_funcs parse (Templates.Funcs tpl m).dir fs _ t
      rw [hw]
      exact ht
    rw [hfun]
    show mapLookup (Templates.Funcs tpl m).funcmap n = some v
    show mapLookup (m.foldl (fun m0 kv => mapInsert m0 kv.1 kv.2) tpl.funcmap) n = some v
    exact mapLookup_foldl_insert m tpl.funcmap n v hnd hm
  · intro v1 v2
    simp [Templates.Funcs, mapLookup_mapInsert]

/-- Witness for C8: a function registered under the name upper is in the
table of the engine template built by a subsequent Load. -/
theorem funcs_registered_for_load_witness :
    mapLookup tC8.funcs "upper" = some { id := 7 } :=
  (funcs_registered_for_load parseAll (NewTemplates "" false)
      (Templates.Load parseAll [entryA] tplC8).1 fmC8 [entryA] tC8 "upper" { id := 7 }
      none).1 (by decide) rfl rfl rfl

theorem fail_lookup_isSome (br : BindingResult) (fl e f : String)
    (h : (mapLookup br f).isSome = true) :
    (mapLookup (BindingResult.Fail br fl e) f).isSome = true := by
  show (mapLookup (mapInsert br fl e) f).isSome = true
  rw [mapLookup_mapInsert]
  by_cases hf : fl = f <;> simp [hf, h]

theorem include_lookup_isSome (br other : BindingResult) (f : String) :
    (mapLookup br f).isSome = true →
    (mapLookup (BindingResult.Include br other) f).isSome = true := by
  show (mapLookup br f).isSome = true →
    (mapLookup (other.foldl (fun acc p => BindingResult.Fail acc p.1 p.2) br) f).isSome = true
  induction other generalizing br with
  | nil => exact fun h => h
  | cons p rest ih =>
    intro h
    rw [List.foldl_cons]
    exact ih _ (fail_lookup_isSome br p.1 p.2 f h)

theorem applyOps_lookup_isSome (br : BindingResult) (ops : List BrOp) (f : String) :
    (mapLookup br f).isSome = true →
    (mapLookup (applyOps br ops) f).isSome = true := by
  show (mapLookup br f).isSome = true →
    (mapLookup (ops.foldl applyOp br) f).isSome = true
  induction ops generalizing br with
  | nil => exact fun h => h
  | cons op rest ih =>
    intro h
    rw [List.foldl_cons]
    cases op with
    | fail fl e => exact ih _ (fail_lookup_isSome br fl e f h)
    | incl o => exact ih _ (include_lookup_isSome br o f h)

theorem valid_iff_no_message (br : BindingResult) :
    BindingResult.Valid br = true ↔ ∀ f, mapLookup br f = none := by
  cases br with
  | nil => simp [BindingResult.Valid, mapLookup]
  | cons p rest =>
    constructor
    · intro h
      simp [BindingResult.Valid] at h
    · intro h
      have hx := h p.1
      simp [mapLookup] at hx

/-- Claim C9: across any sequence of Fail and Include operations, a field
with a recorded message keeps a recorded message (entries are never
removed); Valid is true exactly when no field has a recorded message; and
consequently Valid can only change from true to false across a sequence of
operations, never back. -/
theorem bindingResult_monotone :
    (∀ (br : BindingResult) (ops : List BrOp) (f : String),
      (mapLookup br f).isSome = true → (mapLookup (applyOps br ops) f).isSome = true)
    ∧ (∀ br : BindingResult, BindingResult.Valid br = true ↔ ∀ f, mapLookup br f = none)
    ∧ (∀ (br : BindingResult) (ops : List BrOp),
      BindingResult.Valid (applyOps br ops) = true → BindingResult.Valid br = true) := by
  refine ⟨fun br ops f => applyOps_lookup_isSome br ops f, valid_iff_no_message, ?_⟩
  intro br ops h
  cases br with
  | nil => simp [BindingResult.Valid]
  | cons p rest =>
    exfalso
    have h1 : (mapLookup (p :: rest) p.1).isSome = true := by simp [mapLookup]
    have h2 := applyOps_lookup_isSome (p :: rest) ops p.1 h1
    have h3 := (valid_iff_no_message (applyOps (p :: rest) ops)).mp h p.1
    rw [h3] at h2
    simp at h2

/-- Witness for C9: a recorded message survives a Fail on another field. -/
theorem bindingResult_monotone_witness :
    (mapLookup (applyOps [("x", "bad")] [BrOp.fail "y" "also bad"]) "x").isSome = true :=
  bindingResult_monotone.1 [("x", "bad")] [BrOp.fail "y" "also bad"] "x" rfl

theorem mapInsert_self {β : Type} (m : List (String × β)) (p : String × β)
    (hnd : (m.map Prod.fst).Nodup) (hp : p ∈ m) :
    mapInsert m p.1 p.2 = m := by
  induction m with
  | nil => cases hp
  | cons q rest ih =>
    simp only [List.map_cons, List.nodup_cons] at hnd
    rcases List.mem_cons.mp hp with hq | hq
    · subst hq
      simp [mapInsert]
    · have hne : q.1 ≠ p.1 := by
        intro he
        apply hnd.1
        rw [he]
        exact List.mem_map_of_mem Prod.fst hq
      simp only [mapInsert, if_neg hne]
      rw [ih hnd.2 hq]

theorem includeExec_fold_other (rb ro : Nat) (hne : ro ≠ rb) (l : BindingResult)
    (h0 : Nat → BindingResult) :
    (l.foldl (fun h p => fun i => if i = rb then BindingResult.Fail (h rb) p.1 p.2 else h i)
      h0) ro = h0 ro := by
  induction l generalizing h0 with
  | nil => rfl
  | cons p rest ih =>
    rw [List.foldl_cons, ih]
    simp [hne]

theorem includeExec_fold_self (rb : Nat) (m : BindingResult)
    (hnd : (m.map Prod.fst).Nodup) :
    ∀ l : BindingResult, (∀ p ∈ l, p ∈ m) →
    ∀ h0 : Nat → BindingResult, h0 rb = m →
    (l.foldl (fun h p => fun i => if i = rb then BindingResult.Fail (h rb) p.1 p.2 else h i)
      h0) rb = m := by
  intro l
  induction l with
  | nil =>
    intro _ h0 hh
    exact hh
  | cons p rest ih =>
    intro hsub h0 hh
    rw [List.foldl_cons]
    apply ih (fun q hq => hsub q (List.mem_cons_of_mem _ hq))
    have hins : BindingResult.Fail m p.1 p.2 = m :=
      mapInsert_self m p hnd (hsub p (List.mem_cons_self _ _))
    simp [hh, hins]

/-- Claim C10: executing br.Include(other) leaves the argument other
completely unchanged: on a heap of Go maps addressed by reference, with
the receiver and the argument possibly aliased, the map the argument
refers to is the same map after the call, so every field and message pair
of other before the call is exactly its set after the call. -/
theorem include_frame (rb ro : Nat) (heap : Nat → BindingResult)
    (hnd : ((heap ro).map Prod.fst).Nodup) :
    includeExec rb ro heap ro = heap ro
    ∧ ∀ f, mapLookup (includeExec rb ro heap ro) f = mapLookup (heap ro) f := by
  have hmain : includeExec rb ro heap ro = heap ro := by
    by_cases hr : ro = rb
    · subst hr
      exact includeExec_fold_self ro (heap ro) hnd (heap ro) (fun p hp => hp) heap rfl
    · exact includeExec_fold_other rb ro hr (heap ro) heap
  exact ⟨hmain, fun f => by rw [hmain]⟩

/-- Witness for C10: an aliased Include call on a one-entry map leaves the
map unchanged. -/
theorem include_frame_witness :
    includeExec 0 0 (fun _ => [("a", "x")]) 0 = [("a", "x")] :=
  (include_frame 0 0 (fun _ => [("a", "x")]) (by simp)).1
